import Mathlib

/-!
Verification of the MMM-Nextcloud module (a MagicMirror slideshow module
for images stored on a Nextcloud WebDAV share) against its natural-language
specification.  The development shallowly embeds the two source files
`MMM-Nextcloud.js` (the slideshow orchestrator running in the browser) and
`node_helper.js` (the repository client, fetch-and-cache layer, metadata
extractor and geocoding resolver running in Node).

JavaScript strings are modelled as `List Char`, machine integers and array
indices as `Int`/`Nat`, the JS `Map` as an insertion-ordered association
list, thrown exceptions as `Except`/`Option`, and emitted socket
notifications as explicit event values returned by the embedded functions.
External builtins (the regular-expression engine, `decodeURIComponent`,
`path.extname`, base64) are given executable models whose behaviour matches
the builtin on the inputs the claims are about; each such model carries a
comment saying what it stands for.
-/

namespace MMMNextcloud

/-! ## Generic string helpers (models of JS string builtins) -/

/-- Model of testing that `needle` is an initial segment of a character
list.  Used to model `String.prototype.replace` with a plain-string search
argument, which replaces the first occurrence only. -/
def leadsWith : List Char → List Char → Bool
  | [], _ => true
  | _ :: _, [] => false
  | a :: as, b :: bs => a == b && leadsWith as bs

/-- Model of JS `haystack.replace(needle, "")` for a plain-string `needle`:
removes the first occurrence of `needle`, returns the string unchanged when
`needle` does not occur (and also when `needle` is empty, matching the JS
behaviour of replacing the empty match at index 0 with the empty string). -/
def replaceFirst : List Char → List Char → List Char
  | [], _ => []
  | c :: rest, needle =>
    if leadsWith needle (c :: rest) then (c :: rest).drop needle.length
    else c :: replaceFirst rest needle

/-- Model of JS `String.prototype.toLowerCase` restricted to the ASCII
range, which is all the extension comparison in the source needs. -/
def toLowerList (s : List Char) : List Char := s.map Char.toLower

/-- Value of a single hexadecimal digit, both cases accepted, as in the
escape sequences understood by `decodeURIComponent`. -/
def hexVal (c : Char) : Option Nat :=
  if '0' ≤ c ∧ c ≤ '9' then some (c.toNat - '0'.toNat)
  else if 'a' ≤ c ∧ c ≤ 'f' then some (c.toNat - 'a'.toNat + 10)
  else if 'A' ≤ c ∧ c ≤ 'F' then some (c.toNat - 'A'.toNat + 10)
  else none

/-- Byte value of two hexadecimal digits. -/
def hexByte (h l : Char) : Option Nat := do
  let a ← hexVal h
  let b ← hexVal l
  some (a * 16 + b)

/-- Model of JS `decodeURIComponent`: percent-escapes are decoded to bytes
and maximal escape runs are UTF-8 decoded; a malformed escape (missing or
non-hex digits), a stray continuation, an overlong encoding, a surrogate
code point or an out-of-range code point makes the builtin throw
`URIError`, modelled by `none`.  Characters outside escapes pass through
unchanged. -/
def decodeURIComponentL : List Char → Option (List Char)
  | [] => some []
  | '%' :: h :: l :: rest => do
    let b1 ← hexByte h l
    if b1 < 0x80 then
      let tail ← decodeURIComponentL rest
      some (Char.ofNat b1 :: tail)
    else if 0xC2 ≤ b1 ∧ b1 ≤ 0xDF then
      match rest with
      | '%' :: h2 :: l2 :: rest2 => do
        let b2 ← hexByte h2 l2
        if 0x80 ≤ b2 ∧ b2 ≤ 0xBF then
          let tail ← decodeURIComponentL rest2
          some (Char.ofNat ((b1 - 0xC0) * 64 + (b2 - 0x80)) :: tail)
        else none
      | _ => none
    else if 0xE0 ≤ b1 ∧ b1 ≤ 0xEF then
      match rest with
      | '%' :: h2 :: l2 :: '%' :: h3 :: l3 :: rest2 => do
        let b2 ← hexByte h2 l2
        let b3 ← hexByte h3 l3
        if (0x80 ≤ b2 ∧ b2 ≤ 0xBF) ∧ (0x80 ≤ b3 ∧ b3 ≤ 0xBF) then
          let cp := (b1 - 0xE0) * 4096 + (b2 - 0x80) * 64 + (b3 - 0x80)
          if 0x800 ≤ cp ∧ ¬ (0xD800 ≤ cp ∧ cp ≤ 0xDFFF) then
            let tail ← decodeURIComponentL rest2
            some (Char.ofNat cp :: tail)
          else none
        else none
      | _ => none
    else if 0xF0 ≤ b1 ∧ b1 ≤ 0xF4 then
      match rest with
      | '%' :: h2 :: l2 :: '%' :: h3 :: l3 :: '%' :: h4 :: l4 :: rest2 => do
        let b2 ← hexByte h2 l2
        let b3 ← hexByte h3 l3
        let b4 ← hexByte h4 l4
        if (0x80 ≤ b2 ∧ b2 ≤ 0xBF) ∧ (0x80 ≤ b3 ∧ b3 ≤ 0xBF) ∧
            (0x80 ≤ b4 ∧ b4 ≤ 0xBF) then
          let cp := (b1 - 0xF0) * 262144 + (b2 - 0x80) * 4096 +
            (b3 - 0x80) * 64 + (b4 - 0x80)
          if 0x10000 ≤ cp ∧ cp ≤ 0x10FFFF then
            let tail ← decodeURIComponentL rest2
            some (Char.ofNat cp :: tail)
          else none
        else none
      | _ => none
    else none
  | '%' :: _ => none
  | c :: rest => (decodeURIComponentL rest).map (c :: ·)

/-- Upper-case hexadecimal digit, as produced by `encodeURIComponent`. -/
def hexDigitU (n : Nat) : Char :=
  if n < 10 then Char.ofNat ('0'.toNat + n) else Char.ofNat ('A'.toNat + n - 10)

/-- UTF-8 byte sequence of a code point, used by the `encodeURIComponent`
model. -/
def utf8Bytes (cp : Nat) : List Nat :=
  if cp < 0x80 then [cp]
  else if cp < 0x800 then [0xC0 + cp / 64, 0x80 + cp % 64]
  else if cp < 0x10000 then
    [0xE0 + cp / 4096, 0x80 + cp / 64 % 64, 0x80 + cp % 64]
  else
    [0xF0 + cp / 262144, 0x80 + cp / 4096 % 64, 0x80 + cp / 64 % 64,
      0x80 + cp % 64]

/-- The characters `encodeURIComponent` leaves unescaped. -/
def uriUnreserved (c : Char) : Bool :=
  (('A' ≤ c ∧ c ≤ 'Z') ∨ ('a' ≤ c ∧ c ≤ 'z') ∨ ('0' ≤ c ∧ c ≤ '9') ∨
    c ∈ ['-', '_', '.', '!', '~', '*', '\'', '(', ')'] : Bool)

/-- Model of JS `encodeURIComponent`: unreserved characters pass through,
everything else is percent-encoded from its UTF-8 bytes. -/
def encodeURIComponentL (s : List Char) : List Char :=
  s.flatMap fun c =>
    if uriUnreserved c then [c]
    else (utf8Bytes c.toNat).flatMap fun b => ['%', hexDigitU (b / 16), hexDigitU (b % 16)]

/-- Standard base64 alphabet, for the data-URI encoding of the image
payload (`buffer.toString("base64")` in the source). -/
def base64Char (n : Nat) : Char :=
  (("ABCDEFGHIJKLMNOPQRSTUVWXYZabcdefghijklmnopqrstuvwxyz0123456789+/".data).getD n '=')

/-- Model of Node `buffer.toString("base64")` over a byte list. -/
def base64Encode : List Nat → List Char
  | b1 :: b2 :: b3 :: rest =>
    let n := b1 % 256 * 65536 + b2 % 256 * 256 + b3 % 256
    base64Char (n / 262144) :: base64Char (n / 4096 % 64) ::
      base64Char (n / 64 % 64) :: base64Char (n % 64) :: base64Encode rest
  | [b1, b2] =>
    let n := b1 % 256 * 65536 + b2 % 256 * 256
    [base64Char (n / 262144), base64Char (n / 4096 % 64), base64Char (n / 64 % 64), '=']
  | [b1] =>
    let n := b1 % 256 * 65536
    [base64Char (n / 262144), base64Char (n / 4096 % 64), '=', '=']
  | [] => []

/-! ## The bounded image cache (`node_helper.js`, `this.imageCache`)

The JS `Map` preserves insertion order; it is modelled as an association
list whose head is the first-inserted entry.  `mapGet`/`mapSet` model
`Map.get`/`Map.set` (setting an existing key updates the value in place and
keeps its position; setting a fresh key appends). -/

/-- Model of `Map.prototype.get`. -/
def mapGet {K V : Type} [DecidableEq K] : List (K × V) → K → Option V
  | [], _ => none
  | (k', v) :: rest, k => if k = k' then some v else mapGet rest k

/-- Model of `Map.prototype.set`: update in place when the key is present,
append otherwise. -/
def mapSet {K V : Type} [DecidableEq K] : List (K × V) → K → V → List (K × V)
  | [], k, v => [(k, v)]
  | (k', v') :: rest, k, v =>
    if k = k' then (k', v) :: rest else (k', v') :: mapSet rest k v

/-- The cache-insertion step of `handleImageDataResponse`
(`node_helper.js` lines 296 to 302): when the map already holds more than
50 entries, the first-inserted key (`imageCache.keys().next().value`) is
deleted, which for the head entry of an insertion-ordered map is exactly
dropping the head; the new entry is then set. -/
def cacheInsert {K V : Type} [DecidableEq K] (cache : List (K × V)) (k : K) (v : V) :
    List (K × V) :=
  mapSet (if 50 < cache.length then cache.drop 1 else cache) k v

/-- The cache key of `fetchImageData` (`node_helper.js` line 224):
`filename + "_" + showWidth + "_" + showHeight`. -/
def cacheKey (filename : String) (showWidth showHeight : Nat) : String :=
  filename ++ "_" ++ toString showWidth ++ "_" ++ toString showHeight

/-! ## Repository client (`node_helper.js`, `parseImageListFromResponse`) -/

/-- Split a character list into the segments delimited by `'<'`: a list
with one more segment than there are `'<'` characters, none of the
segments containing `'<'`. -/
def splitSegs : List Char → List (List Char)
  | [] => [[]]
  | c :: rest =>
    if c = '<' then [] :: splitSegs rest
    else
      match splitSegs rest with
      | s :: ss => (c :: s) :: ss
      | [] => [[c]]

/-- The characters after the first occurrence of the literal `href>` in a
list, or `none` when the marker does not occur. -/
def afterHrefMarker : List Char → Option (List Char)
  | 'h' :: 'r' :: 'e' :: 'f' :: '>' :: rest => some rest
  | _ :: rest => afterHrefMarker rest
  | [] => none

/-- Model of `responseBody.match(/href>([^<]+)</g)` combined with the
per-match `match.replace(/href>([^<]+)</, "$1")` of the source, which
strips each full match down to its capture group.  The global, greedy,
left-to-right matches of `/href>([^<]+)</` are exactly: for every segment
of the body that is followed by a `'<'` (all segments except the last),
the characters after the first `href>` marker inside that segment,
whenever that tail is nonempty.  The marker `href>` contains no `'<'`, the
capture `[^<]+` cannot cross a `'<'`, the greedy capture always extends to
the end of the segment, and consuming a match resumes the scan directly
after the delimiting `'<'`, so no later segment is skipped. -/
def scanHrefs (body : List Char) : List (List Char) :=
  (splitSegs body).dropLast.filterMap fun seg =>
    match afterHrefMarker seg with
    | some content => if content = [] then none else some content
    | none => none

/-- Model of Node `path.extname` (posix): the extension of the basename,
from its last dot to the end; a name whose only dot is its first character
(a dotfile, or the special name `..`) has no extension. -/
def extname (s : List Char) : List Char :=
  let b := (s.reverse.takeWhile (fun c => ¬ (c = '/'))).reverse
  if b = ['.', '.'] then []
  else
    let revTail := b.reverse.takeWhile (fun c => ¬ (c = '.'))
    if b.length ≤ revTail.length then []
    else if revTail.length + 1 = b.length then []
    else '.' :: revTail.reverse

/-- The extension allow-list of `parseImageListFromResponse`
(`node_helper.js` line 176). -/
def imageExtensions : List (List Char) :=
  [".jpg".data, ".jpeg".data, ".png".data, ".gif".data, ".bmp".data,
    ".webp".data, ".tiff".data, ".tif".data]

/-- Substring containment over character lists. -/
def occursIn (needle : List Char) : List Char → Bool
  | [] => needle.isEmpty
  | c :: rest => leadsWith needle (c :: rest) || occursIn needle rest

/-- Model of `new RegExp(pattern, "i").test(filename)` from
`node_helper.js` line 177 and 202.  The regular-expression engine is a JS
builtin external to the repository; for the metacharacter-free patterns the
specification discusses, a case-insensitive pattern test is case-insensitive
substring search, which is what this models. -/
def regexTestCI (pattern s : List Char) : Bool :=
  occursIn (toLowerList pattern) (toLowerList s)

/-- The configuration data `parseImageListFromResponse` reads: `basePath`
is `new URL(config.repositoryConfig.path).pathname` and `exclude` is
`config.repositoryConfig.exclude`. -/
structure RepoParseConfig where
  basePath : List Char
  exclude : List (List Char)

/-- The filename computation of the loop body (`node_helper.js` line 188):
`decodeURIComponent(href.replace(basePath, "").replace(/^\/+/, ""))`;
`none` models the `URIError` thrown by `decodeURIComponent`. -/
def entryFilename (basePath href : List Char) : Option (List Char) :=
  decodeURIComponentL ((replaceFirst href basePath).dropWhile (fun c => c = '/'))

/-- The extension filter of the loop body (`node_helper.js` lines 196 to
199): `imageExtensions.includes(path.extname(filename).toLowerCase())`. -/
def isImageFilename (filename : List Char) : Bool :=
  imageExtensions.contains (toLowerList (extname filename))

/-- The exclusion filter of the loop body (`node_helper.js` line 202):
some configured pattern matches the filename case-insensitively. -/
def isExcluded (exclude : List (List Char)) (filename : List Char) : Bool :=
  exclude.any (fun p => regexTestCI p filename)

/-- Declarative per-entry description of the loop of
`parseImageListFromResponse`: the filename kept for one href entry, or
`none` when the entry is skipped (base directory, empty name, directory,
non-image extension, excluded) or its decoding fails. -/
def keptImage (cfg : RepoParseConfig) (href : List Char) : Option (List Char) :=
  if href = cfg.basePath ∨ href = cfg.basePath ++ ['/'] then none
  else
    match entryFilename cfg.basePath href with
    | none => none
    | some filename =>
      if filename = [] ∨ filename.getLast? = some '/' then none
      else if isImageFilename filename ∧ ¬ isExcluded cfg.exclude filename then
        some filename
      else none

/-- The `for` loop of `parseImageListFromResponse` (`node_helper.js` lines
179 to 208), with the exception behaviour made explicit: entries are
processed in listing order, skipped entries contribute nothing, and a
`URIError` from `decodeURIComponent` aborts the whole loop (`none`), to be
caught by the surrounding `catch`. -/
def parseLoop (cfg : RepoParseConfig) : List (List Char) → Option (List (List Char))
  | [] => some []
  | href :: rest =>
    if href = cfg.basePath ∨ href = cfg.basePath ++ ['/'] then parseLoop cfg rest
    else
      match entryFilename cfg.basePath href with
      | none => none
      | some filename =>
        if filename = [] ∨ filename.getLast? = some '/' then parseLoop cfg rest
        else if ¬ isImageFilename filename then parseLoop cfg rest
        else if isExcluded cfg.exclude filename then parseLoop cfg rest
        else (parseLoop cfg rest).map (filename :: ·)

/-- `parseImageListFromResponse` (`node_helper.js` lines 162 to 216): the
href entries of the body are processed in order; the surrounding
`try`/`catch` turns any thrown error into an empty returned list (the
source logs the error and returns `[]`). -/
def parseImageListFromResponse (cfg : RepoParseConfig) (body : List Char) :
    List (List Char) :=
  match parseLoop cfg (scanHrefs body) with
  | some l => l
  | none => []

/-- An entry either is the base directory or decodes successfully; when
every entry of a listing satisfies this, the loop of
`parseImageListFromResponse` never throws. -/
def entryDecodes (cfg : RepoParseConfig) (href : List Char) : Bool :=
  href == cfg.basePath || href == cfg.basePath ++ ['/'] ||
    (entryFilename cfg.basePath href).isSome

/-! ## Metadata extractor (`node_helper.js`, `extractExifData`) -/

/-- The tags object returned by the external `exif-parser` library; the
source reads exactly these fields.  Numeric values are carried opaquely
(the source performs no arithmetic on coordinates). -/
structure ExifTags where
  dateTimeOriginal : Option Int := none
  gpsLatitude : Option Int := none
  gpsLongitude : Option Int := none
  make : Option String := none
  model : Option String := none
deriving DecidableEq

/-- JS truthiness of a possibly-absent number: `undefined`, `null` and `0`
are falsy.  The source guards every tag read with a plain truthiness test
(`if (tags.DateTimeOriginal)`, `if (tags.GPSLatitude && ...)`). -/
def truthyNum : Option Int → Bool
  | none => false
  | some v => decide (v ≠ 0)

/-- JS truthiness of a possibly-absent string: `undefined`, `null` and the
empty string are falsy. -/
def truthyStr : Option String → Bool
  | none => false
  | some s => decide (s ≠ "")

/-- Model of JS `String.prototype.trim` (ASCII whitespace suffices for the
camera label built by the source). -/
def jsTrim (s : String) : String :=
  String.mk (((s.data.dropWhile Char.isWhitespace).reverse.dropWhile
    Char.isWhitespace).reverse)

/-- The record `extractExifData` builds (`node_helper.js` lines 326 to
331).  The `date` field carries the millisecond timestamp passed to
`new Date(tags.DateTimeOriginal * 1000)`; its ISO rendering is a JS
builtin outside the repository.  `location` is filled in asynchronously by
the geocoding continuation, never by `extractExifData` itself. -/
structure ExifRecord where
  date : Option Int
  location : Option String
  camera : Option String
  coordinates : Option (Int × Int)
deriving DecidableEq

/-- The all-empty record `extractExifData` starts from. -/
def emptyExif : ExifRecord :=
  { date := none, location := none, camera := none, coordinates := none }

/-- `extractExifData` (`node_helper.js` lines 325 to 379).  The external
call `exif.create(buffer).parse()` is modelled by its outcome: `.error`
when the library throws (caught by the `catch`, which only logs),
`.ok none` when the result carries no `tags` object, `.ok (some tags)`
otherwise.  Every guard is a JS truthiness test.  The function returns the
record in every case: extraction failures never propagate to the caller,
and `location` is `none` at return because the geocoding lookup the source
may start here is asynchronous. -/
def extractExifData (parseOutcome : Except String (Option ExifTags)) : ExifRecord :=
  match parseOutcome with
  | .error _ => emptyExif
  | .ok none => emptyExif
  | .ok (some tags) =>
    { date :=
        if truthyNum tags.dateTimeOriginal then tags.dateTimeOriginal.map (· * 1000)
        else none
      location := none
      camera :=
        if truthyStr tags.make ∨ truthyStr tags.model then
          some (jsTrim ((tags.make.getD "") ++ " " ++ (tags.model.getD "")))
        else none
      coordinates :=
        if truthyNum tags.gpsLatitude ∧ truthyNum tags.gpsLongitude then
          some (tags.gpsLatitude.getD 0, tags.gpsLongitude.getD 0)
        else none }

/-! ## Geocoding resolver (`node_helper.js`, `reverseGeocode`) -/

/-- The failure modes of `reverseGeocode`: the rejection reasons
constructed in the source (no location found, unparsable body) together
with the transport-level rejections (`error`/`timeout` handlers). -/
inductive GeoError
  | notFound
  | parseFailed (msg : String)
  | networkFailed (msg : String)
  | timedOut
deriving DecidableEq

/-- The address object of the geocoding response; the source reads exactly
these fields in this preference order. -/
structure GeoAddress where
  city : Option String := none
  town : Option String := none
  village : Option String := none
  hamlet : Option String := none
  suburb : Option String := none
  neighbourhood : Option String := none
  county : Option String := none
  state : Option String := none
  country : Option String := none
deriving DecidableEq

/-- JS `a || b` on possibly-absent strings: keep `a` when truthy,
otherwise continue with `b`. -/
def jsOrStr (a b : Option String) : Option String :=
  if truthyStr a then a else b

/-- The location-selection chain of `reverseGeocode` (`node_helper.js`
lines 398 to 407): the first truthy field in the fixed preference order. -/
def pickLocation (a : GeoAddress) : Option String :=
  jsOrStr a.city (jsOrStr a.town (jsOrStr a.village (jsOrStr a.hamlet
    (jsOrStr a.suburb (jsOrStr a.neighbourhood (jsOrStr a.county
      (jsOrStr a.state a.country)))))))

/-- The response handler of `reverseGeocode` (`node_helper.js` lines 392
to 417): `none` for the body models a `JSON.parse` failure (rejected as a
parse error); `some none` models a parsed body without an `address` field
(the source substitutes `{}`); a non-truthy selected location rejects with
`"No location found"`. -/
def reverseGeocodeOutcome (parsedBody : Option (Option GeoAddress)) :
    Except GeoError String :=
  match parsedBody with
  | none => .error (.parseFailed "Failed to parse geocoding response")
  | some addressField =>
    let address := addressField.getD {}
    match pickLocation address with
    | some loc => if loc = "" then .error .notFound else .ok loc
    | none => .error .notFound

/-- The geocoding continuation attached in `extractExifData`
(`node_helper.js` lines 355 to 361): a resolved promise writes the
location into the record, a rejected promise is caught, logged and
swallowed, leaving the record untouched. -/
def applyGeocodeOutcome (rec : ExifRecord) (outcome : Except GeoError String) :
    ExifRecord :=
  match outcome with
  | .ok loc => { rec with location := some loc }
  | .error _ => rec

/-! ## Fetch and cache layer (`node_helper.js`, `fetchImageData` and
`handleImageDataResponse`) -/

/-- One cached image (`node_helper.js` lines 289 to 295). -/
structure CacheEntry where
  filename : String
  encodedData : String
  exifData : ExifRecord
  mimeType : String
  size : Nat
deriving DecidableEq

/-- The socket notifications the node helper sends that the claims are
about, with the exact message strings of the source. -/
inductive HelperEvent
  | imageListReceived (images : List (List Char))
  | imageDataReceived (entry : CacheEntry)
  | errorEvent (message : String) (details : Option String)
deriving DecidableEq

/-- The configuration fields of the node helper that the embedded
functions read. -/
structure HelperConfig where
  repositoryPath : String
  recursive : Bool
  showWidth : Nat
  showHeight : Nat
  enableGeocoding : Bool
deriving DecidableEq

/-- The immediate behaviour of `fetchImageData` once the configuration is
available (`node_helper.js` lines 218 to 263): serve the cached entry for
the cache key without any network activity, or issue an authenticated GET
for the encoded image URL. -/
inductive FetchAction
  | serveCached (entry : CacheEntry)
  | networkFetch (url : String)
deriving DecidableEq

/-- The cache-lookup-or-fetch decision of `fetchImageData`. -/
def fetchImageData (cfg : HelperConfig) (cache : List (String × CacheEntry))
    (filename : String) : FetchAction :=
  let key := cacheKey filename cfg.showWidth cfg.showHeight
  match mapGet cache key with
  | some entry => .serveCached entry
  | none =>
    .networkFetch
      (cfg.repositoryPath ++ "/" ++ String.mk (encodeURIComponentL filename.data))

/-- The success path of `handleImageDataResponse` (`node_helper.js` lines
280 to 314): build the data URI from the buffered body and the
content-type header (default `image/jpeg`), extract the metadata, insert
the entry into the bounded cache and emit `IMAGE_DATA_RECEIVED`. -/
def handleImageDataSuccess (cache : List (String × CacheEntry))
    (filename : String) (key : String) (contentType : Option String)
    (buffer : List Nat) (parseOutcome : Except String (Option ExifTags)) :
    List (String × CacheEntry) × HelperEvent :=
  let mimeType := contentType.getD "image/jpeg"
  let encodedData := "data:" ++ mimeType ++ ";base64," ++
    String.mk (base64Encode buffer)
  let exifData := extractExifData parseOutcome
  let imageData : CacheEntry :=
    { filename := filename, encodedData := encodedData, exifData := exifData,
      mimeType := mimeType, size := buffer.length }
  (cacheInsert cache key imageData, .imageDataReceived imageData)

/-- `handleImageDataResponse` (`node_helper.js` lines 265 to 323): an HTTP
status of 400 or above reports a download error without touching the
cache; otherwise the success path runs. -/
def handleImageDataResponse (statusCode : Nat)
    (cache : List (String × CacheEntry)) (filename key : String)
    (contentType : Option String) (buffer : List Nat)
    (parseOutcome : Except String (Option ExifTags)) :
    List (String × CacheEntry) × HelperEvent :=
  if 400 ≤ statusCode then
    (cache, .errorEvent ("Failed to download image: " ++ filename ++ " (HTTP " ++
      toString statusCode ++ ")") none)
  else
    handleImageDataSuccess cache filename key contentType buffer parseOutcome

/-! ## Listing response handler (`node_helper.js`,
`handleImageListResponse`) -/

/-- The `end` handler of `handleImageListResponse` (`node_helper.js` lines
125 to 151).  A status of 400 or above throws inside the `try`, and the
`catch` reports the thrown message under `"Failed to parse Nextcloud
response"`; otherwise the body is parsed, an empty list is reported as
`"No images found in the specified Nextcloud path"`, and a nonempty list
is emitted as `IMAGE_LIST_RECEIVED`. -/
def handleImageListResponse (cfg : RepoParseConfig) (statusCode : Nat)
    (statusMessage : String) (body : List Char) : HelperEvent :=
  if 400 ≤ statusCode then
    .errorEvent "Failed to parse Nextcloud response"
      (some ("HTTP " ++ toString statusCode ++ ": " ++ statusMessage))
  else
    let imageList := parseImageListFromResponse cfg body
    if imageList.length = 0 then
      .errorEvent "No images found in the specified Nextcloud path" none
    else
      .imageListReceived imageList

/-! ## Node-helper state and the initialization guards (`node_helper.js`,
`start`, `fetchImageList`, `fetchImageData`) -/

/-- The mutable state of the node helper (`node_helper.js` lines 15 to
20). -/
structure HelperState where
  config : Option HelperConfig
  imageCache : List (String × CacheEntry)
  isInitialized : Bool

/-- The state `start` establishes: no configuration, empty cache, not
initialized. -/
def helperStartState : HelperState :=
  { config := none, imageCache := [], isInitialized := false }

/-- A thrown JS runtime error. -/
inductive JsError
  | typeError (msg : String)
deriving DecidableEq

/-- What `fetchImageList` does before any network activity. -/
inductive ListFetchStep
  | notInitialized
  | propfindRequest (url : String) (depth : String)
deriving DecidableEq

/-- `fetchImageList` (`node_helper.js` lines 73 to 116) up to its network
request: an uninitialized helper logs an error and returns
(`notInitialized`); otherwise a PROPFIND request is issued against the
configured path with the `Depth` header chosen by the recursive flag. -/
def fetchImageList (st : HelperState) : Except JsError ListFetchStep :=
  if st.isInitialized = false then .ok .notInitialized
  else
    match st.config with
    | none => .error (.typeError "Cannot read properties of null")
    | some cfg =>
      .ok (.propfindRequest cfg.repositoryPath
        (if cfg.recursive then "infinity" else "1"))

/-- `fetchImageData` as invoked through `socketNotificationReceived`
(`node_helper.js` lines 218 to 231): the function reads
`this.config.showWidth` to build the cache key with no initialization
guard, so a `null` configuration makes the property access throw a
`TypeError`; with a configuration present the pure decision
`fetchImageData` runs. -/
def fetchImageDataStep (st : HelperState) (filename : String) :
    Except JsError FetchAction :=
  match st.config with
  | none => .error (.typeError "Cannot read properties of null (reading showWidth)")
  | some cfg => .ok (fetchImageData cfg st.imageCache filename)

/-! ## Slideshow orchestrator (`MMM-Nextcloud.js`) -/

/-- The playback state of the module (`MMM-Nextcloud.js` lines 49 to 55).
`currentImageIndex` is `-1` for the "none" position; `updateTimerArmed`
models whether the per-image advance timer is set. -/
structure ModuleState where
  imageList : List String
  currentImageIndex : Int
  running : Bool
  animationInProgress : Bool
  updateTimerArmed : Bool
  currentImageUrl : Option String
deriving DecidableEq

/-- The payload `getNextImageFromList` returns and `loadNextImage` sends
with `FETCH_IMAGE`: `{ filename: imageList[target], index: target }`.
`filename` is `none` when the index falls outside the list (JS
`undefined`). -/
structure ImageRequest where
  filename : Option String
  index : Int
deriving DecidableEq

/-- JS array indexing `list[t]` for a possibly negative or out-of-range
index: `undefined` outside the range. -/
def jsIndex (l : List String) (t : Int) : Option String :=
  if t < 0 then none else l.get? t.toNat

/-- The re-roll loop of `getNextImageFromList` in random mode
(`MMM-Nextcloud.js` lines 182 to 184): `Math.floor(Math.random() *
length)` is modelled by a supply of rolls; the do-while keeps rolling
while the list has more than one entry and the roll equals the current
index, and accepts the first other roll.  An exhausted supply (`none`)
models a run of the loop that never exits; the source loop simply keeps
drawing, so a supply containing any differing roll is enough. -/
def pickRandom (len : Nat) (current : Int) : List Nat → Option Nat
  | [] => none
  | r :: rest =>
    if 1 < len ∧ (r : Int) = current then pickRandom len current rest
    else some r

/-- `getNextImageFromList` (`MMM-Nextcloud.js` lines 173 to 204): `none`
models the `null` return for an empty list (and an exhausted roll supply
in random mode); otherwise the chosen index is committed into
`currentImageIndex` and the request payload is returned. -/
def getNextImageFromList (random : Bool) (rolls : List Nat) (st : ModuleState)
    (direction : String) : Option (ModuleState × ImageRequest) :=
  if st.imageList.length = 0 then none
  else
    let nextTarget : Option Int :=
      if random then (pickRandom st.imageList.length st.currentImageIndex rolls).map
        (fun n => (n : Int))
      else if direction = "previous" then
        let t := st.currentImageIndex - 1
        some (if t < 0 then (st.imageList.length : Int) - 1 else t)
      else
        let t := st.currentImageIndex + 1
        some (if (st.imageList.length : Int) ≤ t then 0 else t)
    match nextTarget with
    | none => none
    | some t =>
      some ({ st with currentImageIndex := t },
        { filename := jsIndex st.imageList t, index := t })

/-- The outward actions of `loadNextImage` that the claims are about:
sending `FETCH_IMAGE` to the node helper. -/
inductive ModuleEmit
  | fetchImage (req : ImageRequest)
deriving DecidableEq

/-- `scheduleNextUpdate` (`MMM-Nextcloud.js` lines 365 to 375): a stopped
module returns immediately; a running one re-arms the advance timer. -/
def scheduleNextUpdate (st : ModuleState) : ModuleState :=
  if st.running then { st with updateTimerArmed := true } else st

/-- `loadNextImage` (`MMM-Nextcloud.js` lines 150 to 171): an advance
during an animation is dropped outright (no state change, nothing sent,
nothing queued); an empty list logs a warning and re-arms the timer; a
`null` pick re-arms the timer; otherwise the committed state is kept and
`FETCH_IMAGE` is sent for the chosen image. -/
def loadNextImage (random : Bool) (rolls : List Nat) (st : ModuleState)
    (direction : String) : ModuleState × List ModuleEmit :=
  if st.animationInProgress then (st, [])
  else if st.imageList.length = 0 then (scheduleNextUpdate st, [])
  else
    match getNextImageFromList random rolls st direction with
    | none => (scheduleNextUpdate st, [])
    | some (st2, req) => (st2, [.fetchImage req])

/-- The `ERROR` branch of the module's `socketNotificationReceived`
(`MMM-Nextcloud.js` lines 559 to 562): it logs and calls
`showErrorMessage`, which only rewrites DOM content; no field of the
playback state is assigned, so the state is returned unchanged. -/
def handleErrorNotification (st : ModuleState) : ModuleState := st

/-- The `tempImg.onerror` continuation of `displayImage`
(`MMM-Nextcloud.js` lines 220 to 224): clear the animation flag and re-arm
the advance timer; the current index is not touched. -/
def imageLoadFailed (st : ModuleState) : ModuleState :=
  scheduleNextUpdate { st with animationInProgress := false }

/-! ## Supporting lemmas -/

theorem mapGet_mapSet_self {K V : Type} [DecidableEq K] (k : K) (v : V) :
    ∀ m : List (K × V), mapGet (mapSet m k v) k = some v := by
  intro m
  induction m with
  | nil => simp [mapSet, mapGet]
  | cons p rest ih =>
    obtain ⟨k', v'⟩ := p
    by_cases hk : k = k'
    · simp [mapSet, mapGet, hk]
    · simp [mapSet, mapGet, hk, ih]

theorem mapSet_length_le {K V : Type} [DecidableEq K] (k : K) (v : V) :
    ∀ m : List (K × V), (mapSet m k v).length ≤ m.length + 1 := by
  intro m
  induction m with
  | nil => simp [mapSet]
  | cons p rest ih =>
    obtain ⟨k', v'⟩ := p
    by_cases hk : k = k'
    · simp [mapSet, hk]
    · simp only [mapSet, if_neg hk, List.length_cons]
      omega

theorem mapSet_of_not_mem {K V : Type} [DecidableEq K] (k : K) (v : V) :
    ∀ m : List (K × V), k ∉ m.map Prod.fst → mapSet m k v = m ++ [(k, v)] := by
  intro m
  induction m with
  | nil => intro _; simp [mapSet]
  | cons p rest ih =>
    obtain ⟨k', v'⟩ := p
    intro hmem
    simp only [List.map_cons, List.mem_cons] at hmem
    push_neg at hmem
    simp only [mapSet, if_neg hmem.1]
    rw [ih hmem.2]
    simp

theorem parseLoop_eq_filterMap (cfg : RepoParseConfig) :
    ∀ hrefs : List (List Char),
      (∀ href ∈ hrefs, entryDecodes cfg href = true) →
      parseLoop cfg hrefs = some (hrefs.filterMap (keptImage cfg)) := by
  intro hrefs
  induction hrefs with
  | nil => intro _; simp [parseLoop]
  | cons href rest ih =>
    intro h
    have hrest : ∀ x ∈ rest, entryDecodes cfg x = true := fun x hx =>
      h x (List.mem_cons_of_mem _ hx)
    have hhead : entryDecodes cfg href = true := h href (List.mem_cons_self _ _)
    by_cases hbase : href = cfg.basePath ∨ href = cfg.basePath ++ ['/']
    · simp [parseLoop, keptImage, hbase, ih hrest]
    · have hdec : (entryFilename cfg.basePath href).isSome = true := by
        simp only [entryDecodes, Bool.or_eq_true, beq_iff_eq] at hhead
        rcases hhead with (h1 | h1) | h1
        · exact absurd (Or.inl h1) hbase
        · exact absurd (Or.inr h1) hbase
        · exact h1
      rw [Option.isSome_iff_exists] at hdec
      obtain ⟨filename, hf⟩ := hdec
      by_cases hskip : filename = [] ∨ filename.getLast? = some '/'
      · simp [parseLoop, keptImage, hbase, hf, hskip, ih hrest]
      · by_cases himg : isImageFilename filename = true
        · by_cases hexc : isExcluded cfg.exclude filename = true
          · simp [parseLoop, keptImage, hbase, hf, hskip, himg, hexc, ih hrest]
          · simp [parseLoop, keptImage, hbase, hf, hskip, himg, hexc, ih hrest]
        · simp [parseLoop, keptImage, hbase, hf, hskip, himg, ih hrest]

theorem pickRandom_mem_range (len : Nat) (current : Int) :
    ∀ rolls : List Nat, (∀ r ∈ rolls, r < len) →
      ∀ i, pickRandom len current rolls = some i →
        i < len ∧ (1 < len → (i : Int) ≠ current) := by
  intro rolls
  induction rolls with
  | nil => intro _ i h; simp [pickRandom] at h
  | cons r rest ih =>
    intro h i hp
    by_cases hc : 1 < len ∧ (r : Int) = current
    · simp only [pickRandom, if_pos hc] at hp
      exact ih (fun x hx => h x (List.mem_cons_of_mem _ hx)) i hp
    · simp only [pickRandom, if_neg hc] at hp
      obtain rfl : r = i := by exact Option.some.inj hp
      refine ⟨h r (List.mem_cons_self _ _), ?_⟩
      intro hlen heq
      exact hc ⟨hlen, heq⟩

theorem getNextImageFromList_commits (random : Bool) (rolls : List Nat)
    (st : ModuleState) (direction : String) :
    ∀ st2 req, getNextImageFromList random rolls st direction = some (st2, req) →
      st2 = { st with currentImageIndex := req.index } ∧
      req.filename = jsIndex st.imageList req.index := by
  intro st2 req h
  by_cases hlen : st.imageList.length = 0
  · simp [getNextImageFromList, hlen] at h
  · simp only [getNextImageFromList, if_neg hlen] at h
    cases htarget : (if random then
        (pickRandom st.imageList.length st.currentImageIndex rolls).map
          (fun n => (n : Int))
      else if direction = "previous" then
        let t := st.currentImageIndex - 1
        some (if t < 0 then (st.imageList.length : Int) - 1 else t)
      else
        let t := st.currentImageIndex + 1
        some (if (st.imageList.length : Int) ≤ t then 0 else t)) with
    | none => rw [htarget] at h; simp at h
    | some t =>
      rw [htarget] at h
      simp only [Option.some.injEq, Prod.mk.injEq] at h
      obtain ⟨h1, h2⟩ := h
      subst h1
      rw [← h2]
      exact ⟨rfl, rfl⟩

/-! ## Concrete fixtures used by the claim theorems -/

/-- A fixed cache entry used as the stored value in concrete cache runs. -/
def dummyEntry : CacheEntry :=
  { filename := "", encodedData := "", exifData := emptyExif,
    mimeType := "image/jpeg", size := 0 }

/-- Fifty-one pairwise distinct cache keys, as produced by `cacheKey` for
fifty-one distinct filenames at one display size. -/
def c1Keys : List String :=
  (List.range 51).map (fun i => cacheKey ("img" ++ toString i ++ ".jpg") 400 400)

/-- The cache reached by fetching the fifty-one images in order, starting
from the empty cache of `start`. -/
def c1FilledCache : List (String × CacheEntry) :=
  c1Keys.foldl (fun c k => cacheInsert c k dummyEntry) []

/-- A module state whose list is the three-image list of the claims, at a
given current index. -/
def abcState (i : Int) : ModuleState :=
  { imageList := ["a.jpg", "b.jpg", "c.jpg"], currentImageIndex := i,
    running := true, animationInProgress := false, updateTimerArmed := false,
    currentImageUrl := none }

/-! ## Claim C1 -/

set_option maxRecDepth 100000 in
/-- C1, as stated: the image cache never exceeds 50 entries, and inserting
a 51st distinct key into a cache holding 50 evicts the first-inserted key.
This is false on the code: the eviction in `handleImageDataResponse` runs
only when `imageCache.size > 50`, so inserting the 51st distinct key into
a cache of 50 evicts nothing.  Concretely, after fetching 51 distinct
images starting from the empty cache, the cache holds 51 entries and the
first-inserted key is still present. -/
theorem c1_cache_bound_counterexample :
    c1FilledCache.length = 51 ∧
    (mapGet c1FilledCache (cacheKey "img0.jpg" 400 400)).isSome = true := by
  decide

/-- C1 (amended): the cache entry count never exceeds 51; inserting a
distinct (fresh) key when the cache holds 51 entries evicts exactly the
first-inserted (oldest) entry, never a more recently inserted one: the
resulting cache is the old cache minus its oldest entry, with the new
entry appended. -/
theorem c1_cache_bound_amended :
    (∀ (cache : List (String × CacheEntry)) (k : String) (v : CacheEntry),
        cache.length ≤ 51 → (cacheInsert cache k v).length ≤ 51) ∧
    (∀ (cache : List (String × CacheEntry)) (k : String) (v : CacheEntry),
        cache.length = 51 → k ∉ (cache.drop 1).map Prod.fst →
        cacheInsert cache k v = cache.drop 1 ++ [(k, v)]) := by
  constructor
  · intro cache k v hle
    by_cases hgt : 50 < cache.length
    · have h1 : (cache.drop 1).length = cache.length - 1 := by simp
      have h2 := mapSet_length_le k v (cache.drop 1)
      simp only [cacheInsert, if_pos hgt]
      omega
    · have h2 := mapSet_length_le k v cache
      simp only [cacheInsert, if_neg hgt]
      omega
  · intro cache k v hlen hnot
    have hgt : 50 < cache.length := by omega
    simp only [cacheInsert, if_pos hgt]
    exact mapSet_of_not_mem k v (cache.drop 1) hnot

set_option maxRecDepth 100000 in
/-- Witness for the amended C1 at concrete inputs: one insertion into the
empty cache respects the bound, and inserting a fresh 52nd key into the
51-entry cache drops exactly the oldest entry and appends the new one. -/
theorem c1_cache_bound_amended_witness :
    (cacheInsert ([] : List (String × CacheEntry))
      (cacheKey "a.jpg" 400 400) dummyEntry).length ≤ 51 ∧
    cacheInsert c1FilledCache (cacheKey "new.jpg" 400 400) dummyEntry =
      c1FilledCache.drop 1 ++ [(cacheKey "new.jpg" 400 400, dummyEntry)] :=
  ⟨c1_cache_bound_amended.1 [] (cacheKey "a.jpg" 400 400) dummyEntry (by decide),
   c1_cache_bound_amended.2 c1FilledCache (cacheKey "new.jpg" 400 400) dummyEntry
     (by decide) (by decide)⟩

/-! ## Claim C2 -/

/-- C2, as stated: an unparsable listing body surfaces as a parse error
distinct from the "no images" condition.  This is false on the code: the
`catch` inside `parseImageListFromResponse` turns the thrown `URIError`
into an empty returned list, and `handleImageListResponse` then emits the
very same `"No images found in the specified Nextcloud path"` error event
that a validly parsed listing filtering to zero entries produces.  The
body `href>/b/%zz.jpg<` fails URL-decoding, the body `href>/b/sub/<`
parses validly to zero images, and both produce the identical event. -/
theorem c2_parse_error_counterexample :
    handleImageListResponse ⟨"/b".data, []⟩ 200 "OK" "href>/b/%zz.jpg<".data =
      HelperEvent.errorEvent "No images found in the specified Nextcloud path" none ∧
    handleImageListResponse ⟨"/b".data, []⟩ 200 "OK" "href>/b/sub/<".data =
      HelperEvent.errorEvent "No images found in the specified Nextcloud path" none ∧
    parseImageListFromResponse ⟨"/b".data, []⟩ "href>/b/%zz.jpg<".data = [] := by
  decide

/-- C2 (amended): a listing body whose processing throws is caught inside
`parseImageListFromResponse` and yields the empty list, which
`handleImageListResponse` reports with the same `"No images found"` error
event as a validly parsed zero-entry listing — an error event is still
emitted, never a silent success, but it is not distinct from the
"no images" condition; the distinct `"Failed to parse Nextcloud
response"` event is emitted exactly on HTTP status 400 and above. -/
theorem c2_parse_error_amended :
    (∀ (cfg : RepoParseConfig) (statusMessage : String) (body : List Char),
        parseLoop cfg (scanHrefs body) = none →
        parseImageListFromResponse cfg body = [] ∧
        handleImageListResponse cfg 200 statusMessage body =
          HelperEvent.errorEvent "No images found in the specified Nextcloud path"
            none) ∧
    (∀ (cfg : RepoParseConfig) (statusCode : Nat) (statusMessage : String)
        (body : List Char), 400 ≤ statusCode →
        handleImageListResponse cfg statusCode statusMessage body =
          HelperEvent.errorEvent "Failed to parse Nextcloud response"
            (some ("HTTP " ++ toString statusCode ++ ": " ++ statusMessage))) := by
  constructor
  · intro cfg statusMessage body h
    have hp : parseImageListFromResponse cfg body = [] := by
      simp [parseImageListFromResponse, h]
    refine ⟨hp, ?_⟩
    simp [handleImageListResponse, hp]
  · intro cfg statusCode statusMessage body h
    simp [handleImageListResponse, h]

/-- Witness for the amended C2 at concrete inputs: an overlong UTF-8
percent-escape aborts the parse and yields the empty list, and an HTTP 500
listing response is reported under the parse-failure message. -/
theorem c2_parse_error_amended_witness :
    parseImageListFromResponse ⟨"/b".data, []⟩ "href>/b/%C0%80.jpg<".data = [] ∧
    handleImageListResponse ⟨"/b".data, []⟩ 500 "Server Error" "".data =
      HelperEvent.errorEvent "Failed to parse Nextcloud response"
        (some ("HTTP " ++ toString 500 ++ ": " ++ "Server Error")) :=
  ⟨(c2_parse_error_amended.1 ⟨"/b".data, []⟩ "OK" "href>/b/%C0%80.jpg<".data
      (by decide)).1,
   c2_parse_error_amended.2 ⟨"/b".data, []⟩ 500 "Server Error" "".data (by decide)⟩

/-! ## Claim C3 -/

/-- C3: for any listing response, the entries kept by
`parseImageListFromResponse` are exactly the href entries that, after
stripping the base path, URL-decoding, and discarding the base directory
and entries ending in a path separator, carry an allowed image extension
(case-insensitively) and match no exclusion pattern — in listing order
(the loop is an order-preserving per-entry filter), provided every entry
decodes.  In particular the exclusion patterns are case-insensitive: the
pattern `trash` excludes `Trash/photo.jpg`, which without the pattern is
kept. -/
theorem c3_filter_order_preserved :
    (∀ (cfg : RepoParseConfig) (body : List Char),
        (∀ href ∈ scanHrefs body, entryDecodes cfg href = true) →
        parseImageListFromResponse cfg body =
          (scanHrefs body).filterMap (keptImage cfg)) ∧
    parseImageListFromResponse ⟨"/b".data, ["trash".data]⟩
      "href>/b/Trash/photo.jpg<".data = [] ∧
    parseImageListFromResponse ⟨"/b".data, []⟩
      "href>/b/Trash/photo.jpg<".data = ["Trash/photo.jpg".data] := by
  refine ⟨?_, by decide, by decide⟩
  intro cfg body h
  simp [parseImageListFromResponse, parseLoop_eq_filterMap cfg (scanHrefs body) h]

/-- Witness for C3 on a concrete WebDAV listing: the base directory, a
subdirectory entry and a non-image file are discarded, the two image
entries survive in listing order, and the result agrees with the
declarative per-entry filter. -/
theorem c3_filter_order_preserved_witness :
    parseImageListFromResponse ⟨"/d/P".data, []⟩
      ("<d:href>/d/P/</d:href><d:href>/d/P/a.JPG</d:href>" ++
        "<d:href>/d/P/notes.txt</d:href><d:href>/d/P/sub/</d:href>" ++
        "<d:href>/d/P/z%20z.png</d:href>").data =
      (scanHrefs ("<d:href>/d/P/</d:href><d:href>/d/P/a.JPG</d:href>" ++
        "<d:href>/d/P/notes.txt</d:href><d:href>/d/P/sub/</d:href>" ++
        "<d:href>/d/P/z%20z.png</d:href>").data).filterMap
        (keptImage ⟨"/d/P".data, []⟩) :=
  c3_filter_order_preserved.1 ⟨"/d/P".data, []⟩ _ (by decide)


/-- A module state with the animation flag set, used to exercise the
dropped-advance branch. -/
def c6AnimState : ModuleState :=
  { abcState 1 with animationInProgress := true }

/-- A module state with a two-image list at current index 0. -/
def c5TwoState : ModuleState :=
  { imageList := ["a.jpg", "b.jpg"], currentImageIndex := 0, running := true,
    animationInProgress := false, updateTimerArmed := false,
    currentImageUrl := none }

/-- A module state with a single-image list at current index 0. -/
def c5OneState : ModuleState :=
  { c5TwoState with imageList := ["a.jpg"] }

/-- The state after the random advance of the two-image run. -/
def c5St2 : ModuleState :=
  { c5TwoState with currentImageIndex := 1 }

/-- The request of the random advance of the two-image run. -/
def c5Req : ImageRequest := { filename := some "b.jpg", index := 1 }

/-- The request of the first sequential advance on the three-image list. -/
def c9Req : ImageRequest := { filename := some "a.jpg", index := 0 }

/-- A concrete helper configuration. -/
def c7Cfg : HelperConfig :=
  { repositoryPath := "https://nc.example/remote.php", recursive := false,
    showWidth := 400, showHeight := 400, enableGeocoding := true }

/-! ## Claim C4 -/

/-- C4: in sequential (non-random) mode, for every nonempty image list,
advancing with direction `next` from the last index wraps to index 0 and
advancing with direction `previous` from index 0 wraps to the last index;
and on the concrete list `["a.jpg", "b.jpg", "c.jpg"]` starting from the
"none" position (-1), the first `next` yields `a.jpg` at index 0, the
second `next` yields `b.jpg` at index 1, and `previous` from `b.jpg`
yields `a.jpg` at index 0. -/
theorem c4_sequential_wraparound :
    (∀ (rolls : List Nat) (st : ModuleState), st.imageList ≠ [] →
        st.currentImageIndex = (st.imageList.length : Int) - 1 →
        getNextImageFromList false rolls st "next" =
          some ({ st with currentImageIndex := 0 },
            { filename := jsIndex st.imageList 0, index := 0 })) ∧
    (∀ (rolls : List Nat) (st : ModuleState), st.imageList ≠ [] →
        st.currentImageIndex = 0 →
        getNextImageFromList false rolls st "previous" =
          some ({ st with currentImageIndex := (st.imageList.length : Int) - 1 },
            { filename := jsIndex st.imageList ((st.imageList.length : Int) - 1),
              index := (st.imageList.length : Int) - 1 })) ∧
    (getNextImageFromList false [] (abcState (-1)) "next" =
      some (abcState 0, { filename := some "a.jpg", index := 0 }) ∧
    getNextImageFromList false [] (abcState 0) "next" =
      some (abcState 1, { filename := some "b.jpg", index := 1 }) ∧
    getNextImageFromList false [] (abcState 1) "previous" =
      some (abcState 0, { filename := some "a.jpg", index := 0 })) := by
  refine ⟨?_, ?_, by decide, by decide, by decide⟩
  · intro rolls st hne hcur
    have hlen : ¬ st.imageList.length = 0 := fun h0 => hne (List.length_eq_zero.mp h0)
    have hc : (st.imageList.length : Int) ≤ st.currentImageIndex + 1 := by
      rw [hcur]; omega
    simp [getNextImageFromList, hlen, hc]
  · intro rolls st hne hcur
    have hlen : ¬ st.imageList.length = 0 := fun h0 => hne (List.length_eq_zero.mp h0)
    have hc : st.currentImageIndex - 1 < 0 := by rw [hcur]; omega
    simp [getNextImageFromList, hlen, hc, hcur]

/-- Witness for C4 on the three-image list: `next` from the last index 2
wraps to index 0, and `previous` from index 0 wraps to index 2. -/
theorem c4_sequential_wraparound_witness :
    getNextImageFromList false [] (abcState 2) "next" =
      some ({ abcState 2 with currentImageIndex := 0 },
        { filename := jsIndex (abcState 2).imageList 0, index := 0 }) ∧
    getNextImageFromList false [] (abcState 0) "previous" =
      some ({ abcState 0 with currentImageIndex :=
          ((abcState 0).imageList.length : Int) - 1 },
        { filename := jsIndex (abcState 0).imageList
            (((abcState 0).imageList.length : Int) - 1),
          index := ((abcState 0).imageList.length : Int) - 1 }) :=
  ⟨c4_sequential_wraparound.1 [] (abcState 2) (by decide) (by decide),
   c4_sequential_wraparound.2.1 [] (abcState 0) (by decide) (by decide)⟩

/-! ## Claim C5 -/

/-- C5: in random mode, whenever the list has more than one entry and
every roll of the supply is in range, a successful advance returns an
in-range index different from the current one (the roll is re-drawn until
it differs) and commits it; and with exactly one entry the first roll is
accepted unconditionally, so the single index may repeat. -/
theorem c5_random_no_repeat :
    (∀ (st : ModuleState) (rolls : List Nat) (direction : String)
        (st2 : ModuleState) (req : ImageRequest),
        (∀ r ∈ rolls, r < st.imageList.length) →
        1 < st.imageList.length →
        getNextImageFromList true rolls st direction = some (st2, req) →
        0 ≤ req.index ∧ req.index < (st.imageList.length : Int) ∧
          req.index ≠ st.currentImageIndex ∧
          st2.currentImageIndex = req.index) ∧
    (∀ (st : ModuleState) (r : Nat) (rest : List Nat) (direction : String),
        st.imageList.length = 1 →
        getNextImageFromList true (r :: rest) st direction =
          some ({ st with currentImageIndex := (r : Int) },
            { filename := jsIndex st.imageList (r : Int), index := (r : Int) })) := by
  constructor
  · intro st rolls direction st2 req hrolls hlen h
    have hlen0 : ¬ st.imageList.length = 0 := by omega
    simp only [getNextImageFromList, if_neg hlen0, if_pos trivial] at h
    cases hp : pickRandom st.imageList.length st.currentImageIndex rolls with
    | none => rw [hp] at h; simp at h
    | some n =>
      rw [hp] at h
      simp at h
      obtain ⟨h1, h2⟩ := h
      have hn := pickRandom_mem_range st.imageList.length st.currentImageIndex
        rolls hrolls n hp
      have hidx : req.index = (n : Int) := by rw [← h2]
      refine ⟨by rw [hidx]; exact Int.ofNat_nonneg n, ?_, ?_, ?_⟩
      · rw [hidx]
        exact_mod_cast hn.1
      · rw [hidx]
        exact hn.2 hlen
      · rw [← h1, hidx]
  · intro st r rest direction hlen
    have hlen0 : ¬ st.imageList.length = 0 := by omega
    simp [getNextImageFromList, hlen0, pickRandom, hlen]

/-- Witness for C5: on the two-image list with current index 0 and roll
supply `[0, 1]`, the first roll repeats the current index and is re-drawn,
the second is accepted, giving index 1, which is in range, differs from
the current index and is committed; on a single-image list the sole index
0 is returned even though it equals the current index. -/
theorem c5_random_no_repeat_witness :
    (0 ≤ c5Req.index ∧ c5Req.index < ((c5TwoState.imageList.length : Nat) : Int) ∧
      c5Req.index ≠ c5TwoState.currentImageIndex ∧
      c5St2.currentImageIndex = c5Req.index) ∧
    getNextImageFromList true [0] c5OneState "next" =
      some ({ c5OneState with currentImageIndex := ((0 : Nat) : Int) },
        { filename := jsIndex c5OneState.imageList ((0 : Nat) : Int),
          index := ((0 : Nat) : Int) }) :=
  ⟨c5_random_no_repeat.1 c5TwoState [0, 1] "next" c5St2 c5Req (by decide)
      (by decide) (by decide),
   c5_random_no_repeat.2 c5OneState 0 [] "next" (by decide)⟩

/-! ## Claim C6 -/

/-- C6: while an animation is in progress, an advance in either direction
(and either playback mode) is a no-op: `loadNextImage` returns the state
unchanged — in particular the current list position — and sends nothing,
so no image request is issued and none is queued. -/
theorem c6_transition_drop :
    ∀ (random : Bool) (rolls : List Nat) (st : ModuleState) (direction : String),
      st.animationInProgress = true →
      loadNextImage random rolls st direction = (st, []) := by
  intro random rolls st direction h
  simp [loadNextImage, h]

/-- Witness for C6: with the animation flag set on the three-image state,
both a `next` and a `previous` advance leave the state untouched and emit
nothing. -/
theorem c6_transition_drop_witness :
    loadNextImage false [] c6AnimState "next" = (c6AnimState, []) ∧
    loadNextImage true [0] c6AnimState "previous" = (c6AnimState, []) :=
  ⟨c6_transition_drop false [] c6AnimState "next" rfl,
   c6_transition_drop true [0] c6AnimState "previous" rfl⟩

/-! ## Claim C7 -/

/-- C7: a `FETCH_IMAGE` for a filename whose cache key is absent issues
the one network fetch (for the encoded image URL), and after the response
is processed and cached by the success path of `handleImageDataResponse`,
a second request with the same (filename, width, height) finds the cache
key and serves the stored entry with no network call — exactly one fetch
for the pair of calls. -/
theorem c7_cache_hit_no_refetch :
    ∀ (cfg : HelperConfig) (cache : List (String × CacheEntry))
      (filename : String) (contentType : Option String) (buffer : List Nat)
      (parseOutcome : Except String (Option ExifTags)),
      (mapGet cache (cacheKey filename cfg.showWidth cfg.showHeight) = none →
        fetchImageData cfg cache filename =
          FetchAction.networkFetch (cfg.repositoryPath ++ "/" ++
            String.mk (encodeURIComponentL filename.data))) ∧
      (∀ (cache2 : List (String × CacheEntry)) (ev : HelperEvent),
        handleImageDataSuccess cache filename
            (cacheKey filename cfg.showWidth cfg.showHeight) contentType buffer
            parseOutcome = (cache2, ev) →
        ∃ entry, ev = HelperEvent.imageDataReceived entry ∧
          fetchImageData cfg cache2 filename = FetchAction.serveCached entry) := by
  intro cfg cache filename contentType buffer parseOutcome
  constructor
  · intro h
    simp [fetchImageData, h]
  · intro cache2 ev h
    simp only [handleImageDataSuccess, Prod.mk.injEq] at h
    obtain ⟨h1, h2⟩ := h
    refine ⟨_, h2.symm, ?_⟩
    rw [← h1]
    simp [fetchImageData, cacheInsert, mapGet_mapSet_self]

/-- Witness for C7: starting from the empty cache, fetching `a b.jpg`
issues the network fetch for the percent-encoded URL; after the success
path caches the response, the same request is served from the cache. -/
theorem c7_cache_hit_no_refetch_witness :
    fetchImageData c7Cfg [] "a b.jpg" =
      FetchAction.networkFetch "https://nc.example/remote.php/a%20b.jpg" ∧
    ∃ entry,
      (handleImageDataSuccess [] "a b.jpg" (cacheKey "a b.jpg" 400 400) none []
        (Except.ok none)).2 = HelperEvent.imageDataReceived entry ∧
      fetchImageData c7Cfg
        (handleImageDataSuccess [] "a b.jpg" (cacheKey "a b.jpg" 400 400) none []
          (Except.ok none)).1 "a b.jpg" = FetchAction.serveCached entry :=
  ⟨(c7_cache_hit_no_refetch c7Cfg [] "a b.jpg" none [] (Except.ok none)).1
      (by decide),
   (c7_cache_hit_no_refetch c7Cfg [] "a b.jpg" none [] (Except.ok none)).2 _ _
      rfl⟩

/-! ## Claim C8 -/

/-- C8: metadata-extraction and geocoding failures are swallowed at their
source: a throwing EXIF parse yields the all-empty record (as does a
result with no tags), `extractExifData` is a total function whose returned
record always has `location = none` (the geocoding lookup is
asynchronous), every geocoding failure — in particular the
`"No location found"` rejection produced for an empty address — leaves the
record unchanged, and the success path of `handleImageDataResponse` emits
`IMAGE_DATA_RECEIVED`, never an error event, whatever the extraction
outcome was. -/
theorem c8_exif_geocode_failures_swallowed :
    (∀ errMsg : String, extractExifData (Except.error errMsg) = emptyExif) ∧
    (extractExifData (Except.ok none) = emptyExif) ∧
    (∀ parseOutcome, (extractExifData parseOutcome).location = none) ∧
    (∀ (rec : ExifRecord) (err : GeoError),
        applyGeocodeOutcome rec (Except.error err) = rec) ∧
    (reverseGeocodeOutcome (some none) = Except.error GeoError.notFound ∧
      ∀ rec : ExifRecord,
        applyGeocodeOutcome rec (reverseGeocodeOutcome (some none)) = rec) ∧
    (∀ (cache : List (String × CacheEntry)) (filename key : String)
        (contentType : Option String) (buffer : List Nat)
        (parseOutcome : Except String (Option ExifTags)),
        ∃ entry, (handleImageDataSuccess cache filename key contentType buffer
          parseOutcome).2 = HelperEvent.imageDataReceived entry) := by
  refine ⟨fun errMsg => rfl, rfl, ?_, fun rec err => rfl, ⟨rfl, ?_⟩, ?_⟩
  · intro parseOutcome
    match parseOutcome with
    | Except.error _ => rfl
    | Except.ok none => rfl
    | Except.ok (some tags) => rfl
  · intro rec
    rfl
  · intro cache filename key contentType buffer parseOutcome
    exact ⟨_, rfl⟩

/-! ## Claim C9 -/

/-- C9: whenever an advance is not dropped and results in a `FETCH_IMAGE`,
the emitted request carries exactly the index already committed into the
returned state (the index is committed by `getNextImageFromList` before
`loadNextImage` sends the request); and neither the `ERROR` notification
handler nor the image-load error continuation touches the current index,
so a failed or errored fetch leaves the playback position at the failed
image and never restores the previous index. -/
theorem c9_index_committed_before_fetch :
    (∀ (random : Bool) (rolls : List Nat) (st : ModuleState)
        (direction : String) (st2 : ModuleState) (req : ImageRequest),
        loadNextImage random rolls st direction =
          (st2, [ModuleEmit.fetchImage req]) →
        st2.currentImageIndex = req.index) ∧
    (∀ st : ModuleState, handleErrorNotification st = st) ∧
    (∀ st : ModuleState,
        (imageLoadFailed st).currentImageIndex = st.currentImageIndex) := by
  refine ⟨?_, fun st => rfl, ?_⟩
  · intro random rolls st direction st2 req h
    by_cases hanim : st.animationInProgress = true
    · simp [loadNextImage, hanim] at h
    · by_cases hlen : st.imageList.length = 0
      · simp [loadNextImage, hanim, hlen] at h
      · simp only [loadNextImage, hanim, if_neg hlen, Bool.false_eq_true,
          if_false] at h
        cases hg : getNextImageFromList random rolls st direction with
        | none => rw [hg] at h; simp at h
        | some p =>
          rw [hg] at h
          obtain ⟨st3, req3⟩ := p
          simp only [Prod.mk.injEq, List.cons.injEq, ModuleEmit.fetchImage.injEq,
            and_true] at h
          obtain ⟨h1, h2⟩ := h
          have hc := getNextImageFromList_commits random rolls st direction
            st3 req3 hg
          rw [← h1, ← h2, hc.1]
  · intro st
    by_cases hr : st.running = true <;>
      simp [imageLoadFailed, scheduleNextUpdate, hr]

/-- Witness for C9: the first `next` advance on the three-image list from
the "none" position emits the request for index 0 and the returned state
already carries index 0. -/
theorem c9_index_committed_before_fetch_witness :
    (abcState 0).currentImageIndex = c9Req.index :=
  c9_index_committed_before_fetch.1 false [] (abcState (-1)) "next"
    (abcState 0) c9Req (by decide)

/-! ## Claim C10 -/

/-- C10: before configuration initialization, `fetchImageList` checks the
initialized flag, reports by logging and returns without crashing, while
`fetchImageData` has no such guard: it reads `showWidth` off the `null`
configuration to build the cache key and throws a `TypeError` instead of
reporting an error. -/
theorem c10_missing_init_guard :
    ∀ (st : HelperState) (filename : String),
      st.isInitialized = false → st.config = none →
      fetchImageList st = Except.ok ListFetchStep.notInitialized ∧
      ∃ msg, fetchImageDataStep st filename =
        Except.error (JsError.typeError msg) := by
  intro st filename h1 h2
  refine ⟨by simp [fetchImageList, h1],
    ⟨"Cannot read properties of null (reading showWidth)",
      by simp [fetchImageDataStep, h2]⟩⟩

/-- Witness for C10 at the state `start` establishes: the list fetch
returns the not-initialized report and the image fetch throws. -/
theorem c10_missing_init_guard_witness :
    fetchImageList helperStartState = Except.ok ListFetchStep.notInitialized ∧
    ∃ msg, fetchImageDataStep helperStartState "a.jpg" =
      Except.error (JsError.typeError msg) :=
  c10_missing_init_guard helperStartState "a.jpg" rfl rfl

end MMMNextcloud
